import Mathlib

/-!
Shallow embedding, in Lean 4, of the quota / reset / aggregation logic of the
IS-frontend repository (src/src/services/authService.ts, the stats service, the
research-dashboard popular-keyword handler, and src/unnamed/part_001's
getBackendApiUrl), together with theorems settling the specification claims.

JavaScript numbers that can be NaN (the results of Date getters) are modelled
by the type JsNum below; every comparison with NaN is false, exactly as in
ECMAScript.  Machine floats never overflow in the quantities involved
(millisecond timestamps are far below 2^53), so integral values are modelled
by Int.
-/

namespace ISFrontend

/-- A JavaScript number that may be NaN.  Arithmetic on NaN yields NaN and
every ordered comparison involving NaN is false (ECMAScript semantics). -/
inductive JsNum where
  | nan : JsNum
  | num : Int → JsNum
deriving DecidableEq, Repr

def JsNum.add : JsNum → JsNum → JsNum
  | .num a, .num b => .num (a + b)
  | _, _ => .nan

def JsNum.sub : JsNum → JsNum → JsNum
  | .num a, .num b => .num (a - b)
  | _, _ => .nan

def JsNum.mul : JsNum → JsNum → JsNum
  | .num a, .num b => .num (a * b)
  | _, _ => .nan

/-- The JavaScript `>=` on numbers: false whenever either side is NaN. -/
def JsNum.ge : JsNum → JsNum → Bool
  | .num a, .num b => decide (b ≤ a)
  | _, _ => false

/-- A JavaScript `Date` as used by the source: only the three getters the code
calls are modelled.  `new Date(s)` on an unparseable string yields the Invalid
Date, whose getters all return NaN; the constructor never throws. -/
structure JSDate where
  getFullYear : JsNum
  getMonth : JsNum
  getTime : JsNum
deriving DecidableEq, Repr

/-- The Invalid Date: every getter returns NaN. -/
def JSDate.invalid : JSDate := ⟨.nan, .nan, .nan⟩

/-- Subscription tiers (authService.ts union type 'free' | 'standard' | 'pro'). -/
inductive Tier where
  | free : Tier
  | standard : Tier
  | pro : Tier
deriving DecidableEq, Repr

/-- The `isMonthly` flag computed at every call site of
shouldResetSearchCount: `userTier === 'free'` (authService.ts lines 217, 276,
408). -/
def tierIsMonthly (t : Tier) : Bool := decide (t = Tier.free)

/--
AuthService.shouldResetSearchCount (authService.ts lines 323-343).

`parseDate` stands for the ECMAScript `new Date(string)` parser, which maps an
unparseable string to JSDate.invalid and never throws; consequently nothing in
the body of the source's try block can throw and the catch branch (line 341,
`return true`) is unreachable, so it has no counterpart here.

The source's daily branch computes `(now.getTime() - lastReset.getTime()) /
(1000*60*60) >= 24`; division by the positive constant 3600000 makes this
equivalent to comparing the millisecond difference with 86400000, which is how
it is written here (NaN propagates through the subtraction identically).
-/
def shouldResetSearchCount (parseDate : String → JSDate)
    (lastResetDate : Option String) (now : JSDate) (isMonthly : Bool) : Bool :=
  match lastResetDate with
  | none => true
  | some s =>
    let lastReset := parseDate s
    if isMonthly then
      JsNum.ge (JsNum.add
        (JsNum.mul (JsNum.sub now.getFullYear lastReset.getFullYear) (.num 12))
        (JsNum.sub now.getMonth lastReset.getMonth)) (.num 1)
    else
      JsNum.ge (JsNum.sub now.getTime lastReset.getTime) (.num 86400000)

end ISFrontend

namespace ISFrontend

/-- The row fetched from the remote `users` table: the two selected columns.
Both columns are nullable; the source guards reads with `|| 0` and permits a
null `last_reset_date`. -/
structure Profile where
  search_count : Option Int
  last_reset_date : Option String
deriving DecidableEq, Repr

/-- Outcome of an awaited remote fetch: a row, an error result (the supabase
client resolves with an `error` field), or a rejected promise (reaches the
enclosing catch). -/
inductive FetchOutcome where
  | ok : Profile → FetchOutcome
  | errorResult : String → FetchOutcome
  | thrown : String → FetchOutcome
deriving DecidableEq, Repr

/-- The browser localStorage: a partial map from string keys to string
values. -/
def LocalStore : Type := String → Option String

/-- localStorage.setItem. -/
def setItem (ls : LocalStore) (k v : String) : LocalStore :=
  fun k' => if k' = k then some v else ls k'

/-- An empty localStorage. -/
def emptyStore : LocalStore := fun _ => none

def searchCountKey (userId : String) : String := "search_count_" ++ userId

def lastResetKey (userId : String) : String := "last_reset_" ++ userId

def subscriptionTierKey (userId : String) : String :=
  "subscription_tier_" ++ userId

/-- JavaScript parseInt(s, 10): skip leading whitespace, read an optional
sign, then the longest run of decimal digits; NaN when that run is empty,
ignoring any trailing characters. -/
def jsParseInt (s : String) : JsNum :=
  let cs := s.toList.dropWhile (fun c => c.isWhitespace)
  let signed : Int × List Char :=
    match cs with
    | '-' :: rest => (-1, rest)
    | '+' :: rest => (1, rest)
    | _ => (1, cs)
  let ds := signed.2.takeWhile (fun c => c.isDigit)
  if ds = [] then .nan
  else .num (signed.1 *
    (ds.foldl (fun n c => n * 10 + (c.toNat - '0'.toNat)) 0 : Nat))

/-- The result object of AuthService.checkSearchLimit. -/
structure LimitResult where
  hasReachedLimit : Bool
  currentCount : Int
  limit : Int
  error : Option String
deriving DecidableEq, Repr

/--
AuthService.checkSearchLimit (authService.ts lines 382-437).

Pro users return early, before the remote record is consulted.  For the other
tiers the `limits` table gives 25 for both keys (the source's `|| 25` fallback
is unreachable for free/standard).  A fetch whose result carries an error is
re-thrown (`if (error) throw error`) and lands in the catch together with a
rejected fetch; the catch returns `hasReachedLimit: false` with the error
attached.  The remote reset write performed when the period has elapsed does
not affect the returned object and is not modelled.
-/
def checkSearchLimit (parseDate : String → JSDate) (tier : Tier)
    (fetched : FetchOutcome) (now : JSDate) : LimitResult :=
  if tier = Tier.pro then ⟨false, 0, 999999, none⟩
  else
    match fetched with
    | .errorResult e => ⟨false, 0, 0, some e⟩
    | .thrown e => ⟨false, 0, 0, some e⟩
    | .ok profile =>
      let isMonthly := tierIsMonthly tier
      let shouldReset :=
        shouldResetSearchCount parseDate profile.last_reset_date now isMonthly
      let currentCount := if shouldReset then 0 else profile.search_count.getD 0
      let limit : Int := 25
      ⟨decide (limit ≤ currentCount), currentCount, limit, none⟩

/--
AuthService.getSearchCount (authService.ts lines 263-320).

`dateToISO` stands for `Date.prototype.toISOString`.  The three fetch
outcomes: a successful row read follows the main path (the remote reset write
does not touch localStorage); an error result falls back to localStorage with
a reset check — note the source calls shouldResetSearchCount there with the
isMonthly parameter left at its default `false`; a rejected promise reaches
the outer catch, which returns parseInt of the cached value without any reset
check or write.  Returns the count together with the updated localStorage.
-/
def getSearchCount (parseDate : String → JSDate) (dateToISO : JSDate → String)
    (fetched : FetchOutcome) (tier : Tier) (ls : LocalStore) (now : JSDate)
    (userId : String) : JsNum × LocalStore :=
  match fetched with
  | .ok profile =>
    let isMonthly := tierIsMonthly tier
    let shouldReset :=
      shouldResetSearchCount parseDate profile.last_reset_date now isMonthly
    if shouldReset && decide (0 < profile.search_count.getD 0) then
      (.num 0, ls)
    else
      (.num (profile.search_count.getD 0), ls)
  | .errorResult _ =>
    let lastResetDate := ls (lastResetKey userId)
    let shouldReset := shouldResetSearchCount parseDate lastResetDate now false
    if shouldReset then
      (.num 0,
        setItem (setItem ls (searchCountKey userId) "0")
          (lastResetKey userId) (dateToISO now))
    else
      (jsParseInt ((ls (searchCountKey userId)).getD "0"), ls)
  | .thrown _ =>
    (jsParseInt ((ls (searchCountKey userId)).getD "0"), ls)

/-- The result object of AuthService.updateSearchCount: `data.search_count`
when data is present, and the error field. -/
structure UpdateResult where
  data : Option Int
  error : Option String
deriving DecidableEq, Repr

/--
AuthService.updateSearchCount (authService.ts lines 193-260).

The initial row fetch is wrapped in its own try (and its error result is
tested), so any failing fetch leaves `currentCount = 0` and
`lastResetDate = null`.  `tier` is the value produced by the awaited
getSubscriptionTier call (modelled separately), `writeError` the outcome of
the single remote update: on failure the new count and the reset date are
written to localStorage under the user's keys and the new count is still
returned alongside the error.
-/
def updateSearchCount (parseDate : String → JSDate) (dateToISO : JSDate → String)
    (fetched : FetchOutcome) (tier : Tier) (now : JSDate) (increment : Int)
    (writeError : Option String) (ls : LocalStore) (userId : String) :
    UpdateResult × LocalStore :=
  let currentCount0 : Int :=
    match fetched with
    | .ok profile => profile.search_count.getD 0
    | _ => 0
  let lastResetDate0 : Option String :=
    match fetched with
    | .ok profile => profile.last_reset_date
    | _ => none
  let isMonthly := tierIsMonthly tier
  let shouldReset := shouldResetSearchCount parseDate lastResetDate0 now isMonthly
  let currentCount := if shouldReset then 0 else currentCount0
  let lastResetDate := if shouldReset then some (dateToISO now) else lastResetDate0
  let newCount := currentCount + increment
  match writeError with
  | some err =>
    let ls1 := setItem ls (searchCountKey userId) (toString newCount)
    let ls2 := setItem ls1 (lastResetKey userId)
      (lastResetDate.getD (dateToISO now))
    (⟨some newCount, some err⟩, ls2)
  | none => (⟨some newCount, none⟩, ls)

/-- The remote auth session as consulted by getSubscriptionTier: the session
user's id and that user's `user_metadata.subscription_tier`, when present. -/
structure Session where
  userId : String
  subscription_tier : Option String
deriving DecidableEq, Repr

/-- The source's validity test `['free', 'standard', 'pro'].includes(t)`. -/
def validTierString (s : String) : Bool :=
  s = "free" || s = "standard" || s = "pro"

/-- Conversion of a valid tier string to a Tier (only applied to strings
passing validTierString). -/
def parseTier (s : String) : Tier :=
  if s = "free" then .free else if s = "standard" then .standard else .pro

/-- The session-consulting tail of AuthService.getSubscriptionTier
(authService.ts lines 481-491): a valid metadata tier of the matching session
user is cached in localStorage and returned; every other case yields the
default 'free' without a write. -/
def getSubscriptionTierFromSession (ls : LocalStore) (session : Option Session)
    (userId : String) : Tier × LocalStore :=
  match session with
  | some s =>
    if s.userId = userId then
      match s.subscription_tier with
      | some t =>
        if validTierString t then
          (parseTier t, setItem ls (subscriptionTierKey userId) t)
        else (.free, ls)
      | none => (.free, ls)
    else (.free, ls)
  | none => (.free, ls)

/--
AuthService.getSubscriptionTier (authService.ts lines 472-496).

localStorage is checked first: a valid cached tier string is returned at once
without consulting the session.  Only when the cache is missing or invalid is
the session consulted; a valid session tier for this user is cached and
returned; otherwise the default 'free' is returned with no write.  Returns
the tier together with the updated localStorage.
-/
def getSubscriptionTier (ls : LocalStore) (session : Option Session)
    (userId : String) : Tier × LocalStore :=
  let localTier := ls (subscriptionTierKey userId)
  match localTier with
  | some lt =>
    if validTierString lt then (parseTier lt, ls)
    else getSubscriptionTierFromSession ls session userId
  | none => getSubscriptionTierFromSession ls session userId

/-- Whitespace as trimmed by String.prototype.trim. -/
def isWhite (c : Char) : Bool := c.isWhitespace

/-- String.prototype.trim on the character list: drop whitespace from both
ends. -/
def jsTrim (l : List Char) : List Char :=
  ((l.dropWhile isWhite).reverse.dropWhile isWhite).reverse

/-- Query normalization in StatsService.getPlatformStats (part_000 line 106):
`search.search_query.toLowerCase().trim()`, computed on the character list of
the string. -/
def normalizeQuery (s : String) : String :=
  String.mk (jsTrim (s.data.map Char.toLower))

/-- One step of the frequency accumulation
`keywordCounts[query] = (keywordCounts[query] || 0) + 1` on the association
list that models the plain object's own properties: an existing key is bumped
in place, a new key is appended, so the list holds the properties in creation
order.  Reading them back with Object.entries does NOT simply replay this
order — see objectEntries below. -/
def bumpKeyword (k : String) : List (String × Nat) → List (String × Nat)
  | [] => [(k, 1)]
  | (k', c) :: rest =>
    if k' = k then (k', c + 1) :: rest else (k', c) :: bumpKeyword k rest

/-- The keyword-frequency accumulation of StatsService.getPlatformStats
(part_000 lines 103-108) over the fetched recency-ordered queries: the
object's properties in creation order. -/
def keywordCounts (queries : List String) : List (String × Nat) :=
  queries.foldl (fun acc q => bumpKeyword (normalizeQuery q) acc) []

/-- The numeric value of a run of decimal digit characters. -/
def digitsToNat (cs : List Char) : Nat :=
  cs.foldl (fun n c => n * 10 + (c.toNat - '0'.toNat)) 0

/-- Whether a string is a canonical array-index key in the ECMAScript sense:
the canonical decimal representation (digits only, no leading zero except
"0" itself) of an integer below 2^32 - 1.  Such keys enumerate ahead of all
other string keys. -/
def isCanonicalIndexString (s : String) : Bool :=
  let cs := s.data
  !cs.isEmpty && cs.all (fun c => c.isDigit) &&
    (cs = ['0'] || !(cs.head? = some '0')) &&
    decide (digitsToNat cs < 4294967295)

/-- Ascending numeric order on array-index entries, used to model their
enumeration order (entry keys are distinct, so this order is unambiguous). -/
def indexKeyLE (a b : String × Nat) : Prop :=
  digitsToNat a.1.data ≤ digitsToNat b.1.data

instance : DecidableRel indexKeyLE := fun a b =>
  inferInstanceAs (Decidable (digitsToNat a.1.data ≤ digitsToNat b.1.data))

/-- Object.entries enumeration order (ECMAScript OrdinaryOwnPropertyKeys):
own string keys that are canonical array indices come first in ascending
numeric order, followed by the remaining string keys in property-creation
order. -/
def objectEntries (m : List (String × Nat)) : List (String × Nat) :=
  List.insertionSort indexKeyLE
      (m.filter (fun p => isCanonicalIndexString p.1))
    ++ m.filter (fun p => !isCanonicalIndexString p.1)

/-- The count held for key k by the association list modelling the
keywordCounts object (0 for an absent key), used to specify bumpKeyword. -/
def lookupCount (m : List (String × Nat)) (k : String) : Nat :=
  match m.find? (fun p => p.1 == k) with
  | some p => p.2
  | none => 0

/-- The comparator `(a, b) => b.count - a.count` as an ordering relation:
descending by count.  ECMAScript Array.prototype.sort is stable, which the
insertion sort below reproduces. -/
def keywordLE (a b : String × Nat) : Prop := b.2 ≤ a.2

instance : DecidableRel keywordLE := fun a b =>
  inferInstanceAs (Decidable (b.2 ≤ a.2))

instance : IsTotal (String × Nat) keywordLE :=
  ⟨fun a b => le_total b.2 a.2⟩

instance : IsTrans (String × Nat) keywordLE :=
  ⟨fun _ _ _ hab hbc => le_trans hbc hab⟩

/-- The topKeywords computation of StatsService.getPlatformStats (part_000
lines 96-114): over the 100 most recent queries (the remote read orders by
created_at descending with limit 100, modelled by `take 100` on the
recency-ordered history), accumulate normalized frequencies, read the object
back in Object.entries enumeration order, sort descending by count with a
stable sort, and keep the first 5. -/
def topKeywordsOf (queries : List String) : List (String × Nat) :=
  (List.insertionSort keywordLE
    (objectEntries (keywordCounts (queries.take 100)))).take 5

/-- A popular-keyword entry as held in the dashboard state (part_003 line
83). -/
structure PopularKeyword where
  query : String
  count : Nat
deriving DecidableEq, Repr

/-- The fixed fallback list of the research dashboard (part_003 lines
101-107). -/
def defaultPopularKeywords : List PopularKeyword :=
  [⟨"fitness motivation", 0⟩, ⟨"remote work tips", 0⟩,
   ⟨"digital marketing", 0⟩, ⟨"mental health", 0⟩, ⟨"content creation", 0⟩]

/-- The fetchPopularKeywords effect handler of the research dashboard
(part_003 lines 92-114): the popularKeywords state receives the fetched list,
or, when the awaited fetch rejects, the fixed placeholder list from the catch;
nothing is re-thrown. -/
def fetchPopularKeywords (result : Except String (List PopularKeyword)) :
    List PopularKeyword :=
  match result with
  | .ok ks => ks
  | .error _ => defaultPopularKeywords

/-- The characters of "/api". -/
def apiSuffix : List Char := ['/', 'a', 'p', 'i']

/--
getBackendApiUrl (part_001 lines 29-45), over the character list of the
string.  Only the empty string is falsy among strings, so only it throws; JS
`endsWith('/')` on the trimmed string is the test on its last character, one
trailing slash is removed with slice(0, -1), and "/api" is appended unless
already a suffix.
-/
def getBackendApiUrl (baseUrl : List Char) : Except String (List Char) :=
  if baseUrl = [] then .error "Backend URL is required"
  else
    let trimmed := jsTrim baseUrl
    let withoutTrailingSlash :=
      if trimmed.getLast? = some '/' then trimmed.dropLast else trimmed
    if apiSuffix <:+ withoutTrailingSlash then .ok withoutTrailingSlash
    else .ok (withoutTrailingSlash ++ apiSuffix)

/-- Claim C1: for every parseable lastResetDate timestamp, the reset predicate
in monthly mode (tier free) returns true iff
(currentYear - lastResetYear) * 12 + (currentMonth - lastResetMonth) >= 1,
and for every other tier it returns true iff at least 24 hours (86400000 ms)
of wall-clock time have elapsed. -/
theorem C1_reset_boundary (parseDate : String → JSDate) (s : String)
    (ly lm lt ny nm nt : Int)
    (hp : parseDate s = ⟨.num ly, .num lm, .num lt⟩) :
    (shouldResetSearchCount parseDate (some s) ⟨.num ny, .num nm, .num nt⟩
        (tierIsMonthly Tier.free) = decide (1 ≤ (ny - ly) * 12 + (nm - lm)))
    ∧ (∀ t : Tier, t ≠ Tier.free →
        shouldResetSearchCount parseDate (some s) ⟨.num ny, .num nm, .num nt⟩
          (tierIsMonthly t) = decide (86400000 ≤ nt - lt)) := by
  constructor
  · simp [shouldResetSearchCount, hp, tierIsMonthly, JsNum.sub, JsNum.mul,
      JsNum.add, JsNum.ge]
  · intro t ht
    have : tierIsMonthly t = false := by
      simp [tierIsMonthly, ht]
    simp [shouldResetSearchCount, hp, this, JsNum.sub, JsNum.ge]

/-- Witness for C1: a standard-tier timestamp exactly 25 hours old triggers a
reset, instantiated at a concrete parse function. -/
theorem C1_reset_boundary_witness :
    shouldResetSearchCount (fun _ => ⟨.num 2026, .num 0, .num 0⟩)
      (some "2026-01-01T00:00:00.000Z") ⟨.num 2026, .num 0, .num 90000000⟩
      (tierIsMonthly Tier.standard) = decide ((86400000 : Int) ≤ 90000000 - 0) :=
  (C1_reset_boundary (fun _ => ⟨.num 2026, .num 0, .num 0⟩)
    "2026-01-01T00:00:00.000Z" 2026 0 0 2026 0 90000000 rfl).2
    Tier.standard (by decide)

/-- Claim C3 (code bug evaluation): with `new Date` mapping the unparseable
string "not-a-date" to the Invalid Date, shouldResetSearchCount returns false
in both the monthly and the 24-hour mode — the NaN comparisons are false and
the catch branch never fires — while a missing (null) timestamp does return
true in both modes.  The spec says unparseable timestamps are treated as
elapsed (true). -/
theorem C3_unparseable_timestamp_bug :
    (shouldResetSearchCount (fun _ => JSDate.invalid) (some "not-a-date")
        ⟨.num 2026, .num 9, .num 1760140800000⟩ true = false)
    ∧ (shouldResetSearchCount (fun _ => JSDate.invalid) (some "not-a-date")
        ⟨.num 2026, .num 9, .num 1760140800000⟩ false = false)
    ∧ (shouldResetSearchCount (fun _ => JSDate.invalid) none
        ⟨.num 2026, .num 9, .num 1760140800000⟩ true = true)
    ∧ (shouldResetSearchCount (fun _ => JSDate.invalid) none
        ⟨.num 2026, .num 9, .num 1760140800000⟩ false = true) := by
  refine ⟨rfl, rfl, rfl, rfl⟩

theorem searchCountKey_ne_lastResetKey (userId : String) :
    searchCountKey userId ≠ lastResetKey userId := by
  intro h
  have hlen := congrArg String.length h
  have h1 : ("search_count_" : String).length = 13 := rfl
  have h2 : ("last_reset_" : String).length = 11 := rfl
  rw [searchCountKey, lastResetKey, String.length_append, String.length_append,
    h1, h2] at hlen
  omega

/-- Claim C2: for a successfully fetched record, tiers free and standard
report hasReachedLimit = true iff the post-reset count is at least 25, while
tier pro reports hasReachedLimit = false with a fixed result that never
consults the fetched record. -/
theorem C2_check_limit (parseDate : String → JSDate) (now : JSDate) :
    (∀ (tier : Tier) (profile : Profile), tier ≠ Tier.pro →
      (checkSearchLimit parseDate tier (.ok profile) now).hasReachedLimit =
        decide ((25 : Int) ≤
          (if shouldResetSearchCount parseDate profile.last_reset_date now
              (tierIsMonthly tier)
           then 0 else profile.search_count.getD 0)))
    ∧ (∀ fetched : FetchOutcome,
        checkSearchLimit parseDate Tier.pro fetched now =
          ⟨false, 0, 999999, none⟩) := by
  constructor
  · intro tier profile hpro
    simp [checkSearchLimit, hpro]
  · intro fetched
    simp [checkSearchLimit]

/-- Witness for C2: a free-tier record with a fresh reset date and count 25
reaches its limit. -/
theorem C2_check_limit_witness :
    Tier.free ≠ Tier.pro ∧
    (checkSearchLimit (fun _ => ⟨.num 2026, .num 9, .num 0⟩) Tier.free
        (.ok ⟨some 25, some "2026-10-01T00:00:00.000Z"⟩)
        ⟨.num 2026, .num 9, .num 3600000⟩).hasReachedLimit =
      decide ((25 : Int) ≤
        (if shouldResetSearchCount (fun _ => ⟨.num 2026, .num 9, .num 0⟩)
            (some "2026-10-01T00:00:00.000Z") ⟨.num 2026, .num 9, .num 3600000⟩
            (tierIsMonthly Tier.free)
         then 0 else (some (25 : Int)).getD 0)) :=
  ⟨by decide,
   (C2_check_limit (fun _ => ⟨.num 2026, .num 9, .num 0⟩)
      ⟨.num 2026, .num 9, .num 3600000⟩).1 Tier.free
      ⟨some 25, some "2026-10-01T00:00:00.000Z"⟩ (by decide)⟩

/-- Claim C4: updateSearchCount with increment 1 applies any due reset before
incrementing — a failed row fetch or an elapsed (or missing) reset boundary
yields a returned count of 1, and otherwise the previously fetched count plus
one, for every write outcome. -/
theorem C4_record_search_resets_then_increments
    (parseDate : String → JSDate) (dateToISO : JSDate → String) (tier : Tier)
    (now : JSDate) (writeError : Option String) (ls : LocalStore)
    (userId : String) :
    (∀ e, ((updateSearchCount parseDate dateToISO (.errorResult e) tier now 1
        writeError ls userId).1).data = some 1)
    ∧ (∀ e, ((updateSearchCount parseDate dateToISO (.thrown e) tier now 1
        writeError ls userId).1).data = some 1)
    ∧ (∀ profile : Profile,
        ((updateSearchCount parseDate dateToISO (.ok profile) tier now 1
            writeError ls userId).1).data =
          some (if shouldResetSearchCount parseDate profile.last_reset_date now
              (tierIsMonthly tier)
            then 1 else profile.search_count.getD 0 + 1)) := by
  refine ⟨?_, ?_, ?_⟩
  · intro e
    cases writeError <;> simp [updateSearchCount, shouldResetSearchCount]
  · intro e
    cases writeError <;> simp [updateSearchCount, shouldResetSearchCount]
  · intro profile
    by_cases h : shouldResetSearchCount parseDate profile.last_reset_date now
      (tierIsMonthly tier)
    · cases writeError <;> simp [updateSearchCount, h]
    · cases writeError <;> simp [updateSearchCount, h]

/-- Claim C5: when the remote write fails, updateSearchCount writes the
computed new count and a reset date to localStorage under the user's keys,
still returns the new count together with the error, and that count is the
same one a successful write would have returned — the increment is never
dropped. -/
theorem C5_write_failure_falls_back_to_cache
    (parseDate : String → JSDate) (dateToISO : JSDate → String)
    (fetched : FetchOutcome) (tier : Tier) (now : JSDate) (increment : Int)
    (e : String) (ls : LocalStore) (userId : String) :
    ∃ n : Int,
      ((updateSearchCount parseDate dateToISO fetched tier now increment
          (some e) ls userId).1).data = some n
      ∧ ((updateSearchCount parseDate dateToISO fetched tier now increment
          (some e) ls userId).1).error = some e
      ∧ ((updateSearchCount parseDate dateToISO fetched tier now increment
          (some e) ls userId).2) (searchCountKey userId) = some (toString n)
      ∧ (((updateSearchCount parseDate dateToISO fetched tier now
          increment (some e) ls userId).2) (lastResetKey userId)).isSome = true
      ∧ ((updateSearchCount parseDate dateToISO fetched tier now increment
          none ls userId).1).data = some n := by
  refine ⟨_, rfl, rfl, ?_, ?_, rfl⟩
  · simp [updateSearchCount, setItem, searchCountKey_ne_lastResetKey userId]
  · simp [updateSearchCount, setItem]

/-- Claim C7: when the popular-keyword fetch fails, the dashboard handler
stores the fixed placeholder list, every entry of which has count 0, instead
of propagating the error. -/
theorem C7_popular_keywords_fallback (e : String) :
    fetchPopularKeywords (.error e) = defaultPopularKeywords
    ∧ fetchPopularKeywords (.error e) =
        [⟨"fitness motivation", 0⟩, ⟨"remote work tips", 0⟩,
         ⟨"digital marketing", 0⟩, ⟨"mental health", 0⟩,
         ⟨"content creation", 0⟩]
    ∧ (fetchPopularKeywords (.error e)).all (fun p => p.count == 0) = true :=
  ⟨rfl, rfl, rfl⟩

/-- Claim C8: read paths never surface a failure — getSearchCount degrades to
the local cache (and to 0 when the cache is empty) on both failing fetch
outcomes, and checkSearchLimit answers hasReachedLimit = false carrying the
error in its result instead of raising. -/
theorem C8_reads_never_throw (parseDate : String → JSDate)
    (dateToISO : JSDate → String) (tier : Tier) (now : JSDate)
    (userId : String) (e : String) (ls : LocalStore) :
    ((ls (lastResetKey userId) = none) →
      (getSearchCount parseDate dateToISO (.errorResult e) tier ls now
        userId).1 = .num 0)
    ∧ ((getSearchCount parseDate dateToISO (.thrown e) tier ls now userId).1 =
        jsParseInt ((ls (searchCountKey userId)).getD "0"))
    ∧ ((ls (searchCountKey userId) = none) →
      (getSearchCount parseDate dateToISO (.thrown e) tier ls now userId).1 =
        .num 0)
    ∧ ((checkSearchLimit parseDate tier (.errorResult e) now).hasReachedLimit =
        false)
    ∧ ((checkSearchLimit parseDate tier (.thrown e) now).hasReachedLimit =
        false)
    ∧ (tier ≠ Tier.pro →
        (checkSearchLimit parseDate tier (.errorResult e) now).error = some e)
    := by
  refine ⟨?_, rfl, ?_, ?_, ?_, ?_⟩
  · intro h
    simp [getSearchCount, h, shouldResetSearchCount]
  · intro h
    simp only [getSearchCount, h, Option.getD]
    decide
  · by_cases hpro : tier = Tier.pro <;> simp [checkSearchLimit, hpro]
  · by_cases hpro : tier = Tier.pro <;> simp [checkSearchLimit, hpro]
  · intro h
    simp [checkSearchLimit, h]

/-- Witness for C8: with an empty cache, a failing fetch yields count 0, and a
standard-tier limit check carries the error. -/
theorem C8_reads_never_throw_witness :
    emptyStore (lastResetKey "u") = none
    ∧ (getSearchCount (fun _ => JSDate.invalid) (fun _ => "")
        (.errorResult "boom") Tier.standard emptyStore JSDate.invalid "u").1 =
        .num 0
    ∧ Tier.standard ≠ Tier.pro
    ∧ (checkSearchLimit (fun _ => JSDate.invalid) Tier.standard
        (.errorResult "boom") JSDate.invalid).error = some "boom" :=
  ⟨rfl,
   (C8_reads_never_throw (fun _ => JSDate.invalid) (fun _ => "") Tier.standard
      JSDate.invalid "u" "boom" emptyStore).1 rfl,
   by decide,
   (C8_reads_never_throw (fun _ => JSDate.invalid) (fun _ => "") Tier.standard
      JSDate.invalid "u" "boom" emptyStore).2.2.2.2.2 (by decide)⟩

/-- Counterexample to claim C9: a valid locally cached tier shadows a
different valid remote-session tier — with "standard" cached and the session
carrying "pro" for the same user, getSubscriptionTier returns standard, not
the remote-derived pro the claim requires. -/
theorem C9_local_cache_shadows_session_cex :
    (getSubscriptionTier
        (setItem emptyStore (subscriptionTierKey "u") "standard")
        (some ⟨"u", some "pro"⟩) "u").1 = Tier.standard
    ∧ (getSubscriptionTier
        (setItem emptyStore (subscriptionTierKey "u") "standard")
        (some ⟨"u", some "pro"⟩) "u").1 ≠ Tier.pro := by
  constructor
  · rfl
  · decide

/-- Claim C9 as amended: getSubscriptionTier consults the local cache first —
a valid cached tier string is returned unchanged with the session never
affecting the result — and the remote session tier is used (and cached) only
when the local cache is missing or holds an invalid string; with no session
it falls back to the default free. -/
theorem C9_tier_local_cache_first (ls : LocalStore) (session : Option Session)
    (userId : String) :
    (∀ lt, ls (subscriptionTierKey userId) = some lt →
      validTierString lt = true →
      getSubscriptionTier ls session userId = (parseTier lt, ls))
    ∧ (ls (subscriptionTierKey userId) = none →
      getSubscriptionTier ls session userId =
        getSubscriptionTierFromSession ls session userId)
    ∧ (∀ lt, ls (subscriptionTierKey userId) = some lt →
      validTierString lt = false →
      getSubscriptionTier ls session userId =
        getSubscriptionTierFromSession ls session userId)
    ∧ (∀ t, validTierString t = true →
      getSubscriptionTierFromSession ls (some ⟨userId, some t⟩) userId =
        (parseTier t, setItem ls (subscriptionTierKey userId) t))
    ∧ (getSubscriptionTierFromSession ls none userId = (Tier.free, ls)) := by
  refine ⟨?_, ?_, ?_, ?_, rfl⟩
  · intro lt hlt hvalid
    simp [getSubscriptionTier, hlt, hvalid]
  · intro h
    simp [getSubscriptionTier, h]
  · intro lt hlt hinvalid
    simp [getSubscriptionTier, hlt, hinvalid]
  · intro t hvalid
    simp [getSubscriptionTierFromSession, hvalid]

/-- Witness for C9 as amended: a cached "pro" wins outright, and a session
"standard" is adopted when nothing is cached. -/
theorem C9_tier_local_cache_first_witness :
    (setItem emptyStore (subscriptionTierKey "u") "pro")
        (subscriptionTierKey "u") = some "pro"
    ∧ validTierString "pro" = true
    ∧ getSubscriptionTier (setItem emptyStore (subscriptionTierKey "u") "pro")
        (some ⟨"u", some "standard"⟩) "u" =
        (parseTier "pro", setItem emptyStore (subscriptionTierKey "u") "pro")
    ∧ validTierString "standard" = true
    ∧ getSubscriptionTierFromSession emptyStore (some ⟨"u", some "standard"⟩)
        "u" =
        (parseTier "standard",
          setItem emptyStore (subscriptionTierKey "u") "standard") :=
  ⟨by decide, rfl,
   (C9_tier_local_cache_first
      (setItem emptyStore (subscriptionTierKey "u") "pro")
      (some ⟨"u", some "standard"⟩) "u").1 "pro" (by decide) rfl,
   rfl,
   (C9_tier_local_cache_first emptyStore (some ⟨"u", some "standard"⟩)
      "u").2.2.2.1 "standard" rfl⟩

theorem lookupCount_cons (a : String) (b : Nat) (m : List (String × Nat))
    (k : String) :
    lookupCount ((a, b) :: m) k = if a = k then b else lookupCount m k := by
  by_cases h : a = k
  · simp [lookupCount, List.find?_cons_of_pos, h]
  · simp [lookupCount, List.find?_cons_of_neg, h]

theorem lookupCount_bump (k k' : String) (m : List (String × Nat)) :
    lookupCount (bumpKeyword k m) k' =
      lookupCount m k' + (if k' = k then 1 else 0) := by
  induction m with
  | nil =>
    by_cases h : k' = k
    · simp [bumpKeyword, lookupCount_cons, lookupCount, h]
    · have h2 : ¬k = k' := fun hh => h hh.symm
      simp [bumpKeyword, lookupCount_cons, lookupCount, h, h2]
  | cons hd tl ih =>
    obtain ⟨a, b⟩ := hd
    by_cases hak : a = k
    · subst hak
      by_cases h : a = k'
      · subst h
        simp [bumpKeyword, lookupCount_cons]
      · have h2 : ¬k' = a := fun hh => h hh.symm
        simp [bumpKeyword, lookupCount_cons, h, h2]
    · by_cases h : a = k'
      · subst h
        simp [bumpKeyword, hak, lookupCount_cons]
      · simp [bumpKeyword, hak, lookupCount_cons, h, ih]

theorem map_fst_bump (k : String) (m : List (String × Nat)) :
    (bumpKeyword k m).map Prod.fst =
      if k ∈ m.map Prod.fst then m.map Prod.fst
      else m.map Prod.fst ++ [k] := by
  induction m with
  | nil => simp [bumpKeyword]
  | cons hd tl ih =>
    obtain ⟨a, b⟩ := hd
    by_cases hak : a = k
    · subst hak
      simp [bumpKeyword]
    · have hka : ¬k = a := fun hh => hak hh.symm
      by_cases hmem : k ∈ tl.map Prod.fst
      · simp [bumpKeyword, hak, hka, ih, hmem]
      · simp [bumpKeyword, hak, hka, ih, hmem]

theorem nodup_fst_bump (k : String) (m : List (String × Nat))
    (h : (m.map Prod.fst).Nodup) : ((bumpKeyword k m).map Prod.fst).Nodup := by
  rw [map_fst_bump]
  by_cases hmem : k ∈ m.map Prod.fst
  · simpa [hmem] using h
  · simp [hmem, List.nodup_append, h]

theorem lookupCount_eq_of_mem (m : List (String × Nat)) (p : String × Nat)
    (hm : (m.map Prod.fst).Nodup) (hp : p ∈ m) : lookupCount m p.1 = p.2 := by
  induction m with
  | nil => cases hp
  | cons hd tl ih =>
    obtain ⟨a, b⟩ := hd
    simp only [List.map_cons, List.nodup_cons] at hm
    rcases List.mem_cons.1 hp with heq | hp'
    · subst heq
      simp [lookupCount_cons]
    · have hane : a ≠ p.1 := by
        intro hh
        exact hm.1 (hh ▸ List.mem_map_of_mem Prod.fst hp')
      simp [lookupCount_cons, hane, ih hm.2 hp']

theorem lookupCount_foldl_bump (ks : List String) (m : List (String × Nat))
    (k : String) :
    lookupCount (ks.foldl (fun acc q => bumpKeyword q acc) m) k =
      lookupCount m k + ks.count k := by
  induction ks generalizing m with
  | nil => simp
  | cons q ks ih =>
    simp only [List.foldl_cons]
    rw [ih (bumpKeyword q m), lookupCount_bump, List.count_cons]
    by_cases h : k = q
    · subst h
      simp
      omega
    · have h2 : (q == k) = false := by
        simp only [beq_eq_false_iff_ne, ne_eq]
        exact fun hh => h hh.symm
      simp [h, h2]

theorem nodup_fst_foldl_bump (ks : List String) (m : List (String × Nat))
    (h : (m.map Prod.fst).Nodup) :
    ((ks.foldl (fun acc q => bumpKeyword q acc) m).map Prod.fst).Nodup := by
  induction ks generalizing m with
  | nil => simpa using h
  | cons q ks ih =>
    simp only [List.foldl_cons]
    exact ih (bumpKeyword q m) (nodup_fst_bump q m h)

theorem keywordCounts_eq_foldl (qs : List String) :
    keywordCounts qs =
      (qs.map normalizeQuery).foldl (fun acc q => bumpKeyword q acc) [] := by
  simp [keywordCounts, List.foldl_map]

theorem mem_keywordCounts_count (qs : List String) (p : String × Nat)
    (hp : p ∈ keywordCounts qs) : p.2 = (qs.map normalizeQuery).count p.1 := by
  have hnd : ((keywordCounts qs).map Prod.fst).Nodup := by
    rw [keywordCounts_eq_foldl]
    exact nodup_fst_foldl_bump _ _ (by simp)
  have h1 := lookupCount_eq_of_mem (keywordCounts qs) p hnd hp
  rw [keywordCounts_eq_foldl] at h1
  rw [lookupCount_foldl_bump] at h1
  simpa [lookupCount] using h1.symm

theorem filter_orderedInsert (x : String × Nat) (l : List (String × Nat))
    (c : Nat) :
    (List.orderedInsert keywordLE x l).filter (fun p => p.2 == c) =
      if x.2 = c then x :: l.filter (fun p => p.2 == c)
      else l.filter (fun p => p.2 == c) := by
  induction l with
  | nil =>
    by_cases h : x.2 = c
    · simp [List.orderedInsert, List.filter_cons, h]
    · have h2 : (x.2 == c) = false := by
        simp only [beq_eq_false_iff_ne, ne_eq]
        exact h
      simp [List.orderedInsert, List.filter_cons, h, h2]
  | cons y ys ih =>
    simp only [List.orderedInsert]
    by_cases hr : keywordLE x y
    · rw [if_pos hr]
      by_cases h : x.2 = c <;> simp [List.filter_cons, h]
    · rw [if_neg hr]
      have hxy : x.2 < y.2 := lt_of_not_le hr
      by_cases h : x.2 = c
      · have hyc : (y.2 == c) = false := by
          subst h
          simp only [beq_eq_false_iff_ne, ne_eq]
          omega
        simp [List.filter_cons, hyc, ih, h]
      · by_cases hy : y.2 = c <;> simp [List.filter_cons, hy, ih, h]

theorem filter_insertionSort_keywordLE (l : List (String × Nat)) (c : Nat) :
    (List.insertionSort keywordLE l).filter (fun p => p.2 == c) =
      l.filter (fun p => p.2 == c) := by
  induction l with
  | nil => rfl
  | cons x xs ih =>
    simp only [List.insertionSort]
    rw [filter_orderedInsert]
    by_cases h : x.2 = c
    · simp [List.filter_cons, h, ih]
    · simp [List.filter_cons, h, ih]

theorem mem_objectEntries (m : List (String × Nat)) (p : String × Nat)
    (hp : p ∈ objectEntries m) : p ∈ m := by
  rcases List.mem_append.1 hp with h | h
  · exact List.mem_of_mem_filter
      ((List.perm_insertionSort indexKeyLE _).mem_iff.1 h)
  · exact List.mem_of_mem_filter h

/-- Counterexample to claim C6: the sampled queries ["apple", "2024"] have
equal counts and "apple" is seen first, yet the returned list is
[("2024", 1), ("apple", 1)] — the canonical array-index key "2024"
enumerates ahead of the insertion-ordered "apple" in Object.entries, so ties
are not broken by first-seen order in the sampled set. -/
theorem C6_numeric_tie_order_cex :
    topKeywordsOf ["apple", "2024"] = [("2024", 1), ("apple", 1)]
    ∧ topKeywordsOf ["apple", "2024"] ≠ [("apple", 1), ("2024", 1)] := by
  constructor
  · rfl
  · decide

/-- Claim C6 as amended: topKeywordsOf is sorted descending by count, keeps
at most 5 entries, each entry's count is the frequency of its normalized
(lowercased, trimmed) keyword among the sampled (at most 100 most recent)
queries, ties are broken by the Object.entries enumeration order of the
accumulation object — canonical array-index keywords first in ascending
numeric order, then the remaining keywords in first-seen order — which the
stable sort preserves within every equal-count band, and the three-query
example collapses to the single entry ("ai tools", 3). -/
theorem C6_top_keywords_amended (qs : List String) :
    List.Sorted keywordLE (topKeywordsOf qs)
    ∧ (topKeywordsOf qs).length ≤ 5
    ∧ (∀ p ∈ topKeywordsOf qs,
        p.2 = ((qs.take 100).map normalizeQuery).count p.1)
    ∧ (∀ c : Nat,
        (List.insertionSort keywordLE
            (objectEntries (keywordCounts (qs.take 100)))).filter
            (fun p => p.2 == c) =
          (objectEntries (keywordCounts (qs.take 100))).filter
            (fun p => p.2 == c))
    ∧ topKeywordsOf ["AI tools", "ai tools", "AI Tools "] =
        [("ai tools", 3)] := by
  refine ⟨?_, ?_, ?_, ?_, by decide⟩
  · exact (List.sorted_insertionSort keywordLE
      (objectEntries (keywordCounts (qs.take 100)))).sublist
      (List.take_sublist 5 _)
  · simp [topKeywordsOf]
  · intro p hp
    have h1 : p ∈ List.insertionSort keywordLE
        (objectEntries (keywordCounts (qs.take 100))) :=
      List.mem_of_mem_take hp
    have h2 : p ∈ objectEntries (keywordCounts (qs.take 100)) :=
      (List.perm_insertionSort keywordLE _).mem_iff.1 h1
    exact mem_keywordCounts_count _ p (mem_objectEntries _ p h2)
  · intro c
    exact filter_insertionSort_keywordLE _ c

/-- Witness for the amended C6: the example entry is a member and its count 3
equals the frequency of "ai tools" among the three normalized sampled
queries. -/
theorem C6_top_keywords_amended_witness :
    ("ai tools", 3) ∈ topKeywordsOf ["AI tools", "ai tools", "AI Tools "]
    ∧ (3 : Nat) =
        ((["AI tools", "ai tools", "AI Tools "].take 100).map
          normalizeQuery).count "ai tools" :=
  ⟨by decide,
   (C6_top_keywords_amended ["AI tools", "ai tools", "AI Tools "]).2.2.1
     ("ai tools", 3) (by decide)⟩

theorem head_dropWhile_white (l : List Char) (c : Char)
    (h : (l.dropWhile isWhite).head? = some c) : isWhite c = false := by
  induction l with
  | nil => simp at h
  | cons a as ih =>
    by_cases ha : isWhite a = true
    · rw [List.dropWhile_cons_of_pos ha] at h
      exact ih h
    · rw [List.dropWhile_cons_of_neg ha] at h
      simp only [List.head?_cons, Option.some.injEq] at h
      subst h
      simpa using ha

theorem dropWhile_eq_self_of_head (p : Char → Bool) (l : List Char)
    (h : ∀ c, l.head? = some c → p c = false) : l.dropWhile p = l := by
  cases l with
  | nil => rfl
  | cons a as => simp [List.dropWhile_cons, h a rfl]

theorem exists_append_dropWhile_white (l : List Char) :
    ∃ t, l.dropWhile isWhite = jsTrim l ++ t := by
  obtain ⟨s, hs⟩ :=
    List.dropWhile_suffix (l := (l.dropWhile isWhite).reverse) (p := isWhite)
  refine ⟨s.reverse, ?_⟩
  have h2 := congrArg List.reverse hs
  rw [List.reverse_append, List.reverse_reverse] at h2
  exact h2.symm

theorem jsTrim_head_not_white (l : List Char) (c : Char)
    (h : (jsTrim l).head? = some c) : isWhite c = false := by
  obtain ⟨t, ht⟩ := exists_append_dropWhile_white l
  apply head_dropWhile_white l c
  cases hj : jsTrim l with
  | nil => rw [hj] at h; simp at h
  | cons a as =>
    rw [hj] at h
    simp only [List.head?_cons, Option.some.injEq] at h
    rw [ht, hj]
    simp [h]

theorem head_dropLast (l : List Char) (c : Char)
    (h : l.dropLast.head? = some c) : l.head? = some c := by
  match l with
  | [] => simp at h
  | [a] => simp at h
  | a :: b :: t =>
    rw [List.dropLast_cons₂] at h
    simpa using h

theorem getLast?_of_apiSuffix (y : List Char) (h : apiSuffix <:+ y) :
    y.getLast? = some 'i' := by
  obtain ⟨w, hw⟩ := h
  subst hw
  rw [List.getLast?_append_of_ne_nil w (by simp [apiSuffix])]
  rfl

theorem getBackendApiUrl_fixpoint (y : List Char)
    (hhead : ∀ c, y.head? = some c → isWhite c = false)
    (hsuf : apiSuffix <:+ y) : getBackendApiUrl y = .ok y := by
  have hne : y ≠ [] := by
    intro hy
    have hlen := hsuf.length_le
    rw [hy] at hlen
    simp [apiSuffix] at hlen
  have hlast : y.getLast? = some 'i' := getLast?_of_apiSuffix y hsuf
  have htrim : jsTrim y = y := by
    unfold jsTrim
    rw [dropWhile_eq_self_of_head isWhite y hhead]
    rw [dropWhile_eq_self_of_head isWhite y.reverse ?_]
    · exact List.reverse_reverse y
    · intro c hc
      rw [List.head?_reverse, hlast] at hc
      simp only [Option.some.injEq] at hc
      subst hc
      rfl
  simp only [getBackendApiUrl, if_neg hne, htrim, hlast]
  rw [if_neg (by simp : ¬(some 'i' = some '/')), if_pos hsuf]

/-- Counterexample to claim C10: the input "a//" (non-empty) yields "a//api",
whose "/api" ending is immediately preceded by another slash — only one
trailing slash is stripped, so the returned string does not satisfy the
claimed "no trailing slash before /api" normalization. -/
theorem C10_double_slash_cex :
    getBackendApiUrl ("a//".toList) = .ok ("a//api".toList)
    ∧ ("//api".toList) <:+ ("a//api".toList) :=
  ⟨rfl, by decide⟩

/-- Claim C10 as amended: for every non-empty input, getBackendApiUrl
succeeds with a result that ends in "/api", applying it to its own output
returns the output unchanged (idempotence), and the empty list is the only
input that yields the error; a slash may remain immediately before the
appended "/api" when the trimmed input ends in two or more slashes. -/
theorem C10_backend_api_url_amended (l : List Char) (h : l ≠ []) :
    (∃ y, getBackendApiUrl l = .ok y ∧ apiSuffix <:+ y
      ∧ getBackendApiUrl y = .ok y)
    ∧ getBackendApiUrl [] = .error "Backend URL is required" := by
  refine ⟨?_, rfl⟩
  set w := if (jsTrim l).getLast? = some '/' then (jsTrim l).dropLast
    else jsTrim l with hw
  have hwhead : ∀ c, w.head? = some c → isWhite c = false := by
    intro c hc
    rw [hw] at hc
    by_cases hsl : (jsTrim l).getLast? = some '/'
    · rw [if_pos hsl] at hc
      exact jsTrim_head_not_white l c (head_dropLast _ c hc)
    · rw [if_neg hsl] at hc
      exact jsTrim_head_not_white l c hc
  by_cases hsuf : apiSuffix <:+ w
  · refine ⟨w, ?_, hsuf, getBackendApiUrl_fixpoint w hwhead hsuf⟩
    simp only [getBackendApiUrl, if_neg h, ← hw, if_pos hsuf]
  · refine ⟨w ++ apiSuffix, ?_, List.suffix_append w apiSuffix, ?_⟩
    · simp only [getBackendApiUrl, if_neg h, ← hw, if_neg hsuf]
    · apply getBackendApiUrl_fixpoint
      · intro c hc
        cases hwc : w with
        | nil =>
          rw [hwc] at hc
          simp only [List.nil_append, apiSuffix, List.head?_cons,
            Option.some.injEq] at hc
          subst hc
          rfl
        | cons a as =>
          rw [hwc] at hc
          simp only [List.cons_append, List.head?_cons,
            Option.some.injEq] at hc
          exact hwhead c (by rw [hwc]; simp [hc])
      · exact List.suffix_append w apiSuffix

/-- Witness for the amended C10: the concrete input "x.com" is non-empty and
the amended property holds for it. -/
theorem C10_backend_api_url_amended_witness :
    ("x.com".toList ≠ ([] : List Char))
    ∧ ((∃ y, getBackendApiUrl ("x.com".toList) = .ok y ∧ apiSuffix <:+ y
        ∧ getBackendApiUrl y = .ok y)
      ∧ getBackendApiUrl [] = .error "Backend URL is required") :=
  ⟨by decide, C10_backend_api_url_amended _ (by decide)⟩

end ISFrontend
